import Mathlib

/-!
# Verification of the legal knowledge-graph frontend and its graph-engine contract

Shallow embedding of the repository's code:

* `src/frontend/src/lib/api.ts` — the client-side data types (`GraphNode`,
  `GraphEdge`, `GraphData`, `ChatMessage`) and the API call surface.
* `src/frontend/src/App.tsx` — the chat orchestration (`handleSendMessage`,
  `handleClearMemory`, `loadGraph`) as explicit state-passing functions; the
  outcome of each network call is passed in as data (`ApiResult`).
* `src/frontend/src/components/Chat.tsx` — the submit guard (`handleSubmit`).
* `src/frontend/src/components/GraphView.tsx` — the color palette
  (`getEnhancedColor`), the node/edge construction for the flow renderer and
  the drag-position bookkeeping (`handleNodesChange`).
* `src/frontend/src/components/Sidebar.tsx` — the clear-memory button guard.

The backend graph engine (`backend/modules/graph_manager.py` in the
repository's architecture) is not part of the shipped sources; where a claim
depends on it, the engine (case graph store, entity resolver, merge engine,
clear) is modelled from the specification and each such definition is marked
`Modelled from the spec:`.
-/

/-! ## Client data model (src/frontend/src/lib/api.ts) -/

/-- `ChatMessage.role` in api.ts: the union type `'user' | 'assistant'`. -/
inductive Role where
  | user
  | assistant
deriving DecidableEq, Repr

/-- `ChatMessage` from api.ts: `{ role; content }`. -/
structure ChatMessage where
  role : Role
  content : String
deriving DecidableEq, Repr

/-- `GraphNode` from api.ts: the client's declared node shape.  Note that the
interface declares four required fields: `id`, `label`, `type`, `color`. -/
structure GraphNode where
  id : String
  label : String
  type : String
  color : String
deriving DecidableEq, Repr

/-- `GraphEdge` from api.ts: `{ source; target; label }`. -/
structure GraphEdge where
  source : String
  target : String
  label : String
deriving DecidableEq, Repr

/-- `GraphData` from api.ts: `{ nodes; edges }`. -/
structure GraphData where
  nodes : List GraphNode
  edges : List GraphEdge
deriving DecidableEq, Repr

/-- Response of `POST /api/chat` as consumed by `handleSendMessage` in
App.tsx: `assistant_message` and the `graph_updated` flag. -/
structure ChatResponse where
  assistant_message : String
  graph_updated : Bool
deriving DecidableEq, Repr

/-- Outcome of an awaited API call: the resolved value, or the thrown error
(carried as the error message string). -/
inductive ApiResult (α : Type) where
  | ok (value : α)
  | error (message : String)
deriving DecidableEq, Repr

/-- The API calls App.tsx can issue during the interactions under study,
recorded as a trace so that "no request is made" is a provable statement. -/
inductive ApiCall where
  | sendMessage (caseId : Int) (message : String) (fileContent : Option String)
  | getGraph (caseId : Int)
  | clearGraph (caseId : Int)
  | getCase (caseId : Int)
deriving DecidableEq, Repr

/-! ## App component state (src/frontend/src/App.tsx) -/

/-- The `AppContent` state relevant to the claims: `messages`, `graphNodes`,
`graphEdges`, `isLoading`, `selectedCaseId` (a `number | null`). -/
structure AppState where
  messages : List ChatMessage
  graphNodes : List GraphNode
  graphEdges : List GraphEdge
  isLoading : Bool
  selectedCaseId : Option Int
deriving DecidableEq, Repr

/-- Result of running one client handler: the new component state, the API
calls issued (in order) and the `alert`s shown. -/
structure ClientResult where
  state : AppState
  calls : List ApiCall
  alerts : List String
deriving DecidableEq, Repr

/-- JavaScript truthiness of `selectedCaseId : number | null` under `!x`:
falsy exactly for `null` and `0`. -/
def jsFalsy : Option Int → Bool
  | none => true
  | some n => n == 0

/-- `loadGraph` from App.tsx: guarded by `if (!selectedCaseId) return;`, then
`api.getGraph` — on success the nodes/edges state is replaced by the fetched
data, a thrown fetch error is caught and only logged. -/
def loadGraph (st : AppState) (fetch : ApiResult GraphData) : ClientResult :=
  match st.selectedCaseId with
  | none => ⟨st, [], []⟩
  | some c =>
    if c = 0 then ⟨st, [], []⟩
    else
      match fetch with
      | .ok d => ⟨{ st with graphNodes := d.nodes, graphEdges := d.edges }, [.getGraph c], []⟩
      | .error _ => ⟨st, [.getGraph c], []⟩

/-- The literal error reply appended by `handleSendMessage`'s catch block. -/
def errorReplyText : String :=
  "Sorry, there was an error processing your message. Please try again."

/-- The literal alert shown when no case is selected. -/
def noCaseAlertText : String := "Please select or create a case first"

/-- `handleSendMessage` from App.tsx, with the two awaited calls
(`api.sendMessage`, and `api.getGraph` inside `loadGraph`) supplied as data:

* no case selected (`!selectedCaseId`): alert and return;
* append the user message and set `isLoading`;
* on API success: append the assistant message, and reload the graph iff
  `response.graph_updated`;
* on API failure (the promise rejects): the catch block appends the fixed
  error reply; no graph reload happens;
* `finally`: `isLoading := false`. -/
def handleSendMessage (st : AppState) (message : String) (fileContent : Option String)
    (sendResult : ApiResult ChatResponse) (fetchResult : ApiResult GraphData) : ClientResult :=
  match st.selectedCaseId with
  | none => ⟨st, [], [noCaseAlertText]⟩
  | some c =>
    if c = 0 then ⟨st, [], [noCaseAlertText]⟩
    else
      let st1 : AppState :=
        { st with messages := st.messages ++ [⟨.user, message⟩], isLoading := true }
      match sendResult with
      | .ok r =>
        let st2 : AppState :=
          { st1 with messages := st1.messages ++ [⟨.assistant, r.assistant_message⟩] }
        let after : ClientResult :=
          if r.graph_updated then loadGraph st2 fetchResult else ⟨st2, [], []⟩
        ⟨{ after.state with isLoading := false },
         .sendMessage c message fileContent :: after.calls, after.alerts⟩
      | .error _ =>
        ⟨{ st1 with
            messages := st1.messages ++ [⟨.assistant, errorReplyText⟩], isLoading := false },
         [.sendMessage c message fileContent], []⟩

/-- The Sidebar's "Clear Case Memory" button `disabled` prop:
`disabled={!selectedCaseId}`. -/
def clearButtonDisabled (selectedCaseId : Option Int) : Bool :=
  jsFalsy selectedCaseId

/-! Basic sanity examples (concrete runs of the embedded handlers). -/

example :
    (handleSendMessage ⟨[], [], [], false, some 7⟩ "hi" none (.error "boom")
      (.ok ⟨[], []⟩)).state.messages =
      [⟨.user, "hi"⟩, ⟨.assistant, errorReplyText⟩] := by decide

example :
    (handleSendMessage ⟨[], [], [], false, some 7⟩ "hi" none
      (.ok ⟨"ok", false⟩) (.ok ⟨[⟨"1", "A", "Person", "#EF4444"⟩], []⟩)).state.graphNodes =
      [] := by decide

example :
    (handleSendMessage ⟨[], [], [], false, some 7⟩ "hi" none
      (.ok ⟨"ok", true⟩) (.ok ⟨[⟨"1", "A", "Person", "#EF4444"⟩], []⟩)).state.graphNodes =
      [⟨"1", "A", "Person", "#EF4444"⟩] := by decide

/-! ## C1 and C2: the chat turn's effect on the displayed graph -/

/-- **C1.** For every chat turn whose ingest request fails (the API call
throws), the displayed graph state is left exactly as it was before the turn —
no graph reload occurs (no `getGraph` call is issued) and no nodes or edges
change — and the failure surfaces as an appended assistant message explaining
the error; the catch block makes the handler total, so no exception escapes
(`isLoading` is reset by the `finally`). -/
theorem C1_failed_turn_graph_untouched
    (st : AppState) (message : String) (fileContent : Option String)
    (err : String) (fetchResult : ApiResult GraphData)
    (c : Int) (hsel : st.selectedCaseId = some c) (hc : c ≠ 0) :
    (handleSendMessage st message fileContent (.error err) fetchResult).state.graphNodes
        = st.graphNodes ∧
    (handleSendMessage st message fileContent (.error err) fetchResult).state.graphEdges
        = st.graphEdges ∧
    (∀ cid, ApiCall.getGraph cid ∉
        (handleSendMessage st message fileContent (.error err) fetchResult).calls) ∧
    (handleSendMessage st message fileContent (.error err) fetchResult).state.messages
        = st.messages ++ [⟨.user, message⟩, ⟨.assistant, errorReplyText⟩] ∧
    (handleSendMessage st message fileContent (.error err) fetchResult).state.isLoading
        = false := by
  simp [handleSendMessage, hsel, hc]

/-- Witness for `C1_failed_turn_graph_untouched` at a concrete state. -/
theorem C1_failed_turn_graph_untouched_witness :
    (handleSendMessage ⟨[], [], [], false, some 7⟩ "hello" none (.error "network down")
        (.ok ⟨[], []⟩)).state.graphNodes = ([] : List GraphNode) ∧
    (handleSendMessage ⟨[], [], [], false, some 7⟩ "hello" none (.error "network down")
        (.ok ⟨[], []⟩)).state.graphEdges = ([] : List GraphEdge) ∧
    (∀ cid, ApiCall.getGraph cid ∉
        (handleSendMessage ⟨[], [], [], false, some 7⟩ "hello" none (.error "network down")
          (.ok ⟨[], []⟩)).calls) ∧
    (handleSendMessage ⟨[], [], [], false, some 7⟩ "hello" none (.error "network down")
        (.ok ⟨[], []⟩)).state.messages
      = [] ++ [⟨.user, "hello"⟩, ⟨.assistant, errorReplyText⟩] ∧
    (handleSendMessage ⟨[], [], [], false, some 7⟩ "hello" none (.error "network down")
        (.ok ⟨[], []⟩)).state.isLoading = false :=
  C1_failed_turn_graph_untouched ⟨[], [], [], false, some 7⟩ "hello" none "network down"
    (.ok ⟨[], []⟩) 7 rfl (by decide)

/-- **C2.** For every successful chat turn, the chat layer refreshes the
displayed graph via `getGraph` if and only if `graph_updated` is true: when
the flag is true the `getGraph` call is issued and (when it succeeds) the
displayed nodes/edges become the fetched ones; when the flag is false no
`getGraph` call is issued and the displayed graph is unchanged. -/
theorem C2_refresh_iff_graph_updated
    (st : AppState) (message : String) (fileContent : Option String)
    (resp : ChatResponse) (d : GraphData)
    (c : Int) (hsel : st.selectedCaseId = some c) (hc : c ≠ 0) :
    (resp.graph_updated = true →
      (handleSendMessage st message fileContent (.ok resp) (.ok d)).state.graphNodes
          = d.nodes ∧
      (handleSendMessage st message fileContent (.ok resp) (.ok d)).state.graphEdges
          = d.edges ∧
      ApiCall.getGraph c ∈
        (handleSendMessage st message fileContent (.ok resp) (.ok d)).calls) ∧
    (resp.graph_updated = false →
      ∀ fetchResult,
        (handleSendMessage st message fileContent (.ok resp) fetchResult).state.graphNodes
            = st.graphNodes ∧
        (handleSendMessage st message fileContent (.ok resp) fetchResult).state.graphEdges
            = st.graphEdges ∧
        ∀ cid, ApiCall.getGraph cid ∉
          (handleSendMessage st message fileContent (.ok resp) fetchResult).calls) := by
  constructor
  · intro hflag
    simp [handleSendMessage, loadGraph, hsel, hc, hflag]
  · intro hflag fetchResult
    simp [handleSendMessage, loadGraph, hsel, hc, hflag]

/-- Witness for `C2_refresh_iff_graph_updated` at a concrete state. -/
theorem C2_refresh_iff_graph_updated_witness :
    ((⟨"done", true⟩ : ChatResponse).graph_updated = true →
      (handleSendMessage ⟨[], [], [], false, some 7⟩ "hi" none (.ok ⟨"done", true⟩)
          (.ok ⟨[⟨"1", "A", "Person", "#EF4444"⟩], []⟩)).state.graphNodes
        = (⟨[⟨"1", "A", "Person", "#EF4444"⟩], []⟩ : GraphData).nodes ∧
      (handleSendMessage ⟨[], [], [], false, some 7⟩ "hi" none (.ok ⟨"done", true⟩)
          (.ok ⟨[⟨"1", "A", "Person", "#EF4444"⟩], []⟩)).state.graphEdges
        = (⟨[⟨"1", "A", "Person", "#EF4444"⟩], []⟩ : GraphData).edges ∧
      ApiCall.getGraph 7 ∈
        (handleSendMessage ⟨[], [], [], false, some 7⟩ "hi" none (.ok ⟨"done", true⟩)
          (.ok ⟨[⟨"1", "A", "Person", "#EF4444"⟩], []⟩)).calls) ∧
    ((⟨"done", true⟩ : ChatResponse).graph_updated = false →
      ∀ fetchResult,
        (handleSendMessage ⟨[], [], [], false, some 7⟩ "hi" none (.ok ⟨"done", true⟩)
            fetchResult).state.graphNodes = [] ∧
        (handleSendMessage ⟨[], [], [], false, some 7⟩ "hi" none (.ok ⟨"done", true⟩)
            fetchResult).state.graphEdges = [] ∧
        ∀ cid, ApiCall.getGraph cid ∉
          (handleSendMessage ⟨[], [], [], false, some 7⟩ "hi" none (.ok ⟨"done", true⟩)
            fetchResult).calls) :=
  C2_refresh_iff_graph_updated ⟨[], [], [], false, some 7⟩ "hi" none ⟨"done", true⟩
    ⟨[⟨"1", "A", "Person", "#EF4444"⟩], []⟩ 7 rfl (by decide)

/-! ## C5: the chat submit guard (src/frontend/src/components/Chat.tsx) -/

/-- A selected file in the Chat input (only its identity matters here). -/
structure UploadFile where
  name : String
deriving DecidableEq, Repr

/-- `handleSubmit` from Chat.tsx, as the decision of whether and with what
arguments `onSendMessage` is invoked.  The guard is
`if (input.trim() && !isLoading)`; inside it, a selected file is uploaded
first (`api.uploadFile`, supplied as data) — on upload failure the handler
alerts and returns without sending; otherwise `onSendMessage(input,
fileContent)` is called with the original `input` closure value.  Returns
`some (message, fileContent)` exactly when `onSendMessage` is called. -/
def handleSubmit (input : String) (isLoading : Bool)
    (selectedFile : Option UploadFile) (uploadResult : ApiResult String) :
    Option (String × Option String) :=
  if input.trim ≠ "" ∧ isLoading = false then
    match selectedFile with
    | some _ =>
      match uploadResult with
      | .ok text => some (input, some text)
      | .error _ => none
    | none => some (input, none)
  else none

/-- **C5.** For every form submission where the trimmed input is empty or a
previous request is still in flight, `onSendMessage` is not called (so no
ingest request is made); and whenever `onSendMessage` is called, the message
is the typed input, whose trimmed text is non-empty — the ingest path is never
invoked from the chat UI with empty text. -/
theorem C5_submit_guard
    (input : String) (isLoading : Bool) (selectedFile : Option UploadFile)
    (uploadResult : ApiResult String)
    (h : input.trim = "" ∨ isLoading = true) :
    handleSubmit input isLoading selectedFile uploadResult = none ∧
    ∀ m fc, handleSubmit input isLoading selectedFile uploadResult = some (m, fc) →
      m = input ∧ m.trim ≠ "" := by
  have hguard : ¬(input.trim ≠ "" ∧ isLoading = false) := by
    rcases h with h | h
    · exact fun hc => hc.1 h
    · exact fun hc => by simp [h] at hc
  refine ⟨by simp [handleSubmit, hguard], ?_⟩
  intro m fc hsome
  simp [handleSubmit, hguard] at hsome

/-- Witness for `C5_submit_guard`: a submission while a request is in flight
is not sent. -/
theorem C5_submit_guard_witness :
    handleSubmit "hello" true none (.ok "text") = none ∧
    ∀ m fc, handleSubmit "hello" true none (.ok "text") = some (m, fc) →
      m = "hello" ∧ m.trim ≠ "" :=
  C5_submit_guard "hello" true none (.ok "text") (Or.inr rfl)

/-! ## C6: the entity-type color palette (GraphView.tsx, getEnhancedColor) -/

/-- A `{ bg, text, border }` entry of the `colors` record in
`getEnhancedColor`. -/
structure ColorTriple where
  bg : String
  text : String
  border : String
deriving DecidableEq, Repr

/-- The own properties of the `colors` record literal (GraphView.tsx lines
24–31): the six entity-type keys and their triples.  This is only the
literal's own-key table; the full JavaScript access `colors[type]` also
traverses the prototype chain — see `colorsAccess`. -/
def colorsLookup (t : String) : Option ColorTriple :=
  if t = "Person" then some ⟨"#EF4444", "#FFFFFF", "#DC2626"⟩
  else if t = "Location" then some ⟨"#3B82F6", "#FFFFFF", "#2563EB"⟩
  else if t = "Object" then some ⟨"#10B981", "#FFFFFF", "#059669"⟩
  else if t = "Event" then some ⟨"#F59E0B", "#000000", "#D97706"⟩
  else if t = "Organization" then some ⟨"#8B5CF6", "#FFFFFF", "#7C3AED"⟩
  else if t = "Unknown" then some ⟨"#6B7280", "#FFFFFF", "#4B5563"⟩
  else none

/-- `colors.Unknown`. -/
def unknownColor : ColorTriple := ⟨"#6B7280", "#FFFFFF", "#4B5563"⟩

/-- The property names an object literal inherits from `Object.prototype`:
for these keys `colors[type]` is not `undefined` but the inherited (truthy)
function — or, for `__proto__`, the prototype object itself. -/
def objectPrototypeKeys : List String :=
  ["constructor", "hasOwnProperty", "isPrototypeOf", "propertyIsEnumerable",
   "toLocaleString", "toString", "valueOf", "__proto__", "__defineGetter__",
   "__defineSetter__", "__lookupGetter__", "__lookupSetter__"]

/-- The value of the JavaScript property access `colors[type]`: an own key
yields its triple; a key inherited from `Object.prototype` yields the
inherited function/object (truthy, but carrying none of
`bg`/`text`/`border`); any other key yields `undefined`. -/
inductive JsPropValue where
  | triple (c : ColorTriple)
  | inherited (name : String)
  | undefinedProp
deriving DecidableEq, Repr

/-- `colors[type]` with JavaScript prototype-chain semantics. -/
def colorsAccess (t : String) : JsPropValue :=
  match colorsLookup t with
  | some c => .triple c
  | none => if t ∈ objectPrototypeKeys then .inherited t else .undefinedProp

/-- JavaScript truthiness of the accessed property value: only `undefined`
is falsy here (objects and functions are truthy). -/
def jsTruthyProp : JsPropValue → Bool
  | .undefinedProp => false
  | _ => true

/-- `const color = colors[type] || colors.Unknown;` — the fallback fires only
when the access is falsy, i.e. only when neither an own key nor an inherited
`Object.prototype` key was hit. -/
def colorsOrUnknown (t : String) : JsPropValue :=
  if jsTruthyProp (colorsAccess t) then colorsAccess t else .triple unknownColor

/-- The `bg`/`text`/`border` fields the spread `{ ...color }` contributes: a
triple contributes its fields; spreading an inherited function or the
prototype object contributes nothing (they have no enumerable own
properties), leaving the fields `undefined` (`none`). -/
def spreadFields : JsPropValue → Option ColorTriple
  | .triple c => some c
  | _ => none

/-- The value `getEnhancedColor` returns: the (possibly `undefined`) spread
fields plus the `border`/`shadow` the highlight logic adds. -/
structure EnhancedColor where
  bg : Option String
  text : Option String
  border : Option String
  shadow : String
deriving DecidableEq, Repr

/-- `getEnhancedColor` from GraphView.tsx, with `colors[type]` given
prototype-chain semantics. -/
def getEnhancedColor (t : String) (isHighlighted isConnected : Bool) : EnhancedColor :=
  let fields := spreadFields (colorsOrUnknown t)
  if isHighlighted then
    ⟨fields.map (·.bg), fields.map (·.text), some "#FFF",
     "0 0 20px rgba(255,255,255,0.8)"⟩
  else if isConnected then
    ⟨fields.map (·.bg), fields.map (·.text), some "#FFF",
     "0 0 10px rgba(255,255,255,0.5)"⟩
  else
    ⟨fields.map (·.bg), fields.map (·.text), fields.map (·.border),
     "0 2px 8px rgba(0,0,0,0.3)"⟩

/-- The closed set of entity types the palette enumerates. -/
def closedEntityTypes : List String :=
  ["Person", "Location", "Object", "Event", "Organization", "Unknown"]

/-- **C6 counterexample.** The claimed universal fallback is false of the
code: `"toString"` is outside the six closed types, yet `colors["toString"]`
hits the inherited `Object.prototype.toString`, which is truthy, so
`colors[type] || colors.Unknown` does not fall back to the Unknown triple —
the rendered style then carries no background at all instead of the Unknown
background. -/
theorem C6_color_fallback_counterexample :
    "toString" ∉ closedEntityTypes ∧
    colorsOrUnknown "toString" ≠ .triple unknownColor ∧
    colorsOrUnknown "toString" = .inherited "toString" ∧
    (getEnhancedColor "toString" false false).bg ≠ some unknownColor.bg ∧
    (getEnhancedColor "toString" false false).bg = none := by decide

/-- **C6 (amended).** The type-to-color mapping is a total function over
arbitrary strings and each of the six closed types maps to its own fixed
triple, with pairwise-distinct backgrounds; a string outside the six falls
back to the Unknown color unless it names an inherited `Object.prototype`
property, in which case the truthy inherited value preempts the fallback and
the rendered style carries none of the palette's `bg`/`text`/`border`. -/
theorem C6_color_mapping_amended (t : String) (h : t ∉ closedEntityTypes) :
    (t ∉ objectPrototypeKeys →
      colorsOrUnknown t = .triple unknownColor ∧
      ∀ hi conn, getEnhancedColor t hi conn = getEnhancedColor "Unknown" hi conn) ∧
    (t ∈ objectPrototypeKeys →
      colorsOrUnknown t = .inherited t ∧
      (getEnhancedColor t false false).bg = none ∧
      (getEnhancedColor t false false).text = none ∧
      (getEnhancedColor t false false).border = none) ∧
    colorsOrUnknown "Person" = .triple ⟨"#EF4444", "#FFFFFF", "#DC2626"⟩ ∧
    colorsOrUnknown "Location" = .triple ⟨"#3B82F6", "#FFFFFF", "#2563EB"⟩ ∧
    colorsOrUnknown "Object" = .triple ⟨"#10B981", "#FFFFFF", "#059669"⟩ ∧
    colorsOrUnknown "Event" = .triple ⟨"#F59E0B", "#000000", "#D97706"⟩ ∧
    colorsOrUnknown "Organization" = .triple ⟨"#8B5CF6", "#FFFFFF", "#7C3AED"⟩ ∧
    colorsOrUnknown "Unknown" = .triple ⟨"#6B7280", "#FFFFFF", "#4B5563"⟩ ∧
    (closedEntityTypes.map fun x => ((colorsLookup x).getD unknownColor).bg).Nodup := by
  have hlk : colorsLookup t = none := by
    simp only [closedEntityTypes, List.mem_cons, List.not_mem_nil, or_false, not_or] at h
    obtain ⟨h1, h2, h3, h4, h5, h6⟩ := h
    simp [colorsLookup, h1, h2, h3, h4, h5, h6]
  refine ⟨?_, ?_, by decide, by decide, by decide, by decide, by decide, by decide,
    by decide⟩
  · intro hp
    have hacc : colorsAccess t = .undefinedProp := by
      simp [colorsAccess, hlk, hp]
    have hres : colorsOrUnknown t = .triple unknownColor := by
      simp [colorsOrUnknown, hacc, jsTruthyProp]
    refine ⟨hres, ?_⟩
    intro hi conn
    have hu : colorsOrUnknown "Unknown" = .triple unknownColor := by decide
    simp [getEnhancedColor, hres, hu]
  · intro hp
    have hacc : colorsAccess t = .inherited t := by
      simp [colorsAccess, hlk, hp]
    have hres : colorsOrUnknown t = .inherited t := by
      simp [colorsOrUnknown, hacc, jsTruthyProp]
    exact ⟨hres, by simp [getEnhancedColor, hres, spreadFields],
      by simp [getEnhancedColor, hres, spreadFields],
      by simp [getEnhancedColor, hres, spreadFields]⟩

/-- Witness for `C6_color_mapping_amended` at the inherited prototype key
`"toString"`. -/
theorem C6_color_mapping_amended_witness :
    ("toString" ∉ objectPrototypeKeys →
      colorsOrUnknown "toString" = .triple unknownColor ∧
      ∀ hi conn, getEnhancedColor "toString" hi conn
        = getEnhancedColor "Unknown" hi conn) ∧
    ("toString" ∈ objectPrototypeKeys →
      colorsOrUnknown "toString" = .inherited "toString" ∧
      (getEnhancedColor "toString" false false).bg = none ∧
      (getEnhancedColor "toString" false false).text = none ∧
      (getEnhancedColor "toString" false false).border = none) ∧
    colorsOrUnknown "Person" = .triple ⟨"#EF4444", "#FFFFFF", "#DC2626"⟩ ∧
    colorsOrUnknown "Location" = .triple ⟨"#3B82F6", "#FFFFFF", "#2563EB"⟩ ∧
    colorsOrUnknown "Object" = .triple ⟨"#10B981", "#FFFFFF", "#059669"⟩ ∧
    colorsOrUnknown "Event" = .triple ⟨"#F59E0B", "#000000", "#D97706"⟩ ∧
    colorsOrUnknown "Organization" = .triple ⟨"#8B5CF6", "#FFFFFF", "#7C3AED"⟩ ∧
    colorsOrUnknown "Unknown" = .triple ⟨"#6B7280", "#FFFFFF", "#4B5563"⟩ ∧
    (closedEntityTypes.map fun x => ((colorsLookup x).getD unknownColor).bg).Nodup :=
  C6_color_mapping_amended "toString" (by decide)

/-! ## Decimal rendering of indices

`GraphView` gives each rendered edge the id `edge-${index}`.  To show that
distinct indices give distinct ids we prove that `Nat.repr` (the decimal
rendering `toString` uses) is injective. -/

/-- Fuel-free decimal digit-character list of a natural number (most
significant first), phrased through `Nat.digits`. -/
def decRep (n : Nat) : List Char :=
  if n = 0 then ['0'] else ((Nat.digits 10 n).map Nat.digitChar).reverse

theorem toDigitsCore_eq_decRep :
    ∀ (fuel n : Nat) (ds : List Char), n < fuel →
      Nat.toDigitsCore 10 fuel n ds = decRep n ++ ds := by
  intro fuel
  induction fuel with
  | zero => intro n ds h; exact absurd h (Nat.not_lt_zero n)
  | succ fuel ih =>
    intro n ds h
    by_cases hdiv : n / 10 = 0
    · have hn10 : n < 10 := (Nat.div_eq_zero_iff (by norm_num)).mp hdiv
      by_cases hn : n = 0
      · subst hn
        simp [Nat.toDigitsCore, decRep]
        decide
      · have : Nat.digits 10 n = [n % 10] := by
          rw [Nat.digits_def' (by norm_num : (1:ℕ) < 10) (Nat.pos_of_ne_zero hn), hdiv]
          simp
        simp [Nat.toDigitsCore, hdiv, decRep, hn, this]
    · have hn : n ≠ 0 := fun h0 => hdiv (by simp [h0])
      have hlt : n / 10 < fuel :=
        lt_of_lt_of_le (Nat.div_lt_self (Nat.pos_of_ne_zero hn) (by norm_num))
          (Nat.lt_succ_iff.mp h)
      have step : Nat.toDigitsCore 10 (fuel + 1) n ds
          = Nat.toDigitsCore 10 fuel (n / 10) (Nat.digitChar (n % 10) :: ds) := by
        simp [Nat.toDigitsCore, hdiv]
      rw [step, ih (n / 10) (Nat.digitChar (n % 10) :: ds) hlt]
      have hdig : Nat.digits 10 n = n % 10 :: Nat.digits 10 (n / 10) :=
        Nat.digits_def' (by norm_num : (1:ℕ) < 10) (Nat.pos_of_ne_zero hn)
      have : decRep n = decRep (n / 10) ++ [Nat.digitChar (n % 10)] := by
        simp [decRep, hn, hdiv, hdig]
      rw [this, List.append_assoc]
      rfl

theorem toDigits_eq_decRep (n : Nat) : Nat.toDigits 10 n = decRep n :=
  toDigitsCore_eq_decRep (n + 1) n [] (Nat.lt_succ_self n) |>.trans (List.append_nil _)

theorem digitChar_inj_lt_ten :
    ∀ a < 10, ∀ b < 10, Nat.digitChar a = Nat.digitChar b → a = b := by decide

theorem map_digitChar_inj :
    ∀ (xs ys : List Nat), (∀ x ∈ xs, x < 10) → (∀ y ∈ ys, y < 10) →
      xs.map Nat.digitChar = ys.map Nat.digitChar → xs = ys := by
  intro xs
  induction xs with
  | nil =>
    intro ys _ _ h
    cases ys with
    | nil => rfl
    | cons y ys => simp at h
  | cons x xs ih =>
    intro ys hx hy h
    cases ys with
    | nil => simp at h
    | cons y ys =>
      simp only [List.map_cons, List.cons.injEq] at h
      have hxy : x = y :=
        digitChar_inj_lt_ten x (hx x (by simp)) y (hy y (by simp)) h.1
      have htl : xs = ys :=
        ih ys (fun a ha => hx a (by simp [ha])) (fun a ha => hy a (by simp [ha])) h.2
      rw [hxy, htl]

theorem decRep_inj : ∀ m n : Nat, decRep m = decRep n → m = n := by
  have digits_all_lt : ∀ k : Nat, ∀ d ∈ Nat.digits 10 k, d < 10 := fun k d hd =>
    Nat.digits_lt_base (by norm_num) hd
  have zero_case : ∀ k : Nat, k ≠ 0 → decRep k ≠ ['0'] := by
    intro k hk hcontra
    simp only [decRep, hk, if_false] at hcontra
    have hlen : ((Nat.digits 10 k).map Nat.digitChar).reverse.length = 1 := by
      rw [hcontra]; rfl
    simp only [List.length_reverse, List.length_map] at hlen
    obtain ⟨d, hd⟩ := List.length_eq_one.mp hlen
    have hd0 : Nat.digitChar d = '0' := by
      rw [hd] at hcontra
      simpa using hcontra
    have hdlt : d < 10 := digits_all_lt k d (by simp [hd])
    have hdz : d = 0 := digitChar_inj_lt_ten d hdlt 0 (by norm_num) hd0
    apply hk
    have hk0 := Nat.ofDigits_digits 10 k
    rw [hd, hdz] at hk0
    simpa [Nat.ofDigits] using hk0.symm
  intro m n h
  by_cases hm : m = 0 <;> by_cases hn : n = 0
  · rw [hm, hn]
  · exact absurd h.symm (by simpa [decRep, hm] using zero_case n hn)
  · exact absurd h (by simpa [decRep, hn] using zero_case m hm)
  · simp only [decRep, hm, hn, if_false] at h
    have hmaps := List.reverse_injective h
    have hdigits := map_digitChar_inj _ _ (digits_all_lt m) (digits_all_lt n) hmaps
    calc m = Nat.ofDigits 10 (Nat.digits 10 m) := (Nat.ofDigits_digits 10 m).symm
    _ = Nat.ofDigits 10 (Nat.digits 10 n) := by rw [hdigits]
    _ = n := Nat.ofDigits_digits 10 n

theorem natRepr_inj {m n : Nat} (h : Nat.repr m = Nat.repr n) : m = n := by
  apply decRep_inj
  have := h
  unfold Nat.repr at this
  rw [toDigits_eq_decRep, toDigits_eq_decRep] at this
  exact List.asString_inj.mp this

/-- Injectivity of the `edge-${index}` id scheme. -/
theorem edgeId_inj {m n : Nat}
    (h : "edge-" ++ Nat.repr m = "edge-" ++ Nat.repr n) : m = n := by
  apply natRepr_inj
  have hdata := congrArg String.data h
  simp only [String.data_append] at hdata
  have := List.append_cancel_left hdata
  cases hm : Nat.repr m with
  | mk l => cases hn : Nat.repr n with
    | mk l' =>
      rw [hm, hn] at this
      simpa [hm, hn] using congrArg String.mk this

/-! ## GraphView rendering model (src/frontend/src/components/GraphView.tsx)

Coordinates are rationals: every value the component computes (grid positions,
half-spacing offsets, drag positions) is an exact dyadic value, so ℚ embeds
the JavaScript arithmetic faithfully here. -/

/-- An `{x, y}` position. -/
structure Position where
  x : Rat
  y : Rat
deriving DecidableEq, Repr

/-- `Math.ceil(Math.sqrt(n))` on naturals. -/
def ceilSqrt (n : Nat) : Nat :=
  if Nat.sqrt n * Nat.sqrt n = n then Nat.sqrt n else Nat.sqrt n + 1

/-- `calculateLayout` from GraphView.tsx: `(cols, spacing)`; counts up to 6
use the fixed table (`layouts[nodeCount] || layouts[6]`), larger graphs use
`cols = ceil(sqrt n)` and `spacing = max(180, 300 - n*5)`. -/
def calculateLayout (nodeCount : Nat) : Nat × Rat :=
  if nodeCount ≤ 6 then
    match nodeCount with
    | 1 => (1, 200)
    | 2 => (2, 250)
    | 3 => (3, 200)
    | 4 => (2, 250)
    | 5 => (3, 200)
    | _ => (3, 200)
  else
    (ceilSqrt nodeCount, max 180 (300 - (nodeCount : Rat) * 5))

/-- The computed grid position for the node at `index` (GraphView.tsx lines
86–93): `row = ⌊index / cols⌋`, `col = index % cols`, odd rows shifted right
by half a spacing. -/
def gridPosition (index cols : Nat) (spacing : Rat) : Position :=
  let row := index / cols
  let col := index % cols
  let offsetX : Rat := if row % 2 = 1 then spacing / 2 else 0
  ⟨(col : Rat) * spacing + offsetX + 100, (row : Rat) * spacing + 100⟩

/-- The JSX label block rendered into `data.label`: the node's label and type
in the palette's text color. -/
structure NodeData where
  labelText : String
  typeText : String
  textColor : Option String
deriving DecidableEq, Repr

/-- The style object of a rendered node (`background` and the text color are
`undefined` when the palette produced no spread fields). -/
structure NodeStyle where
  background : Option String
  textColor : Option String
  border : String
  boxShadow : String
  opacity : Rat
deriving DecidableEq, Repr

/-- A rendered flow node: `{ id, position, data, style }`. -/
structure FlowNode where
  id : String
  position : Position
  data : NodeData
  style : NodeStyle
deriving DecidableEq, Repr

/-- JavaScript template-literal interpolation of a possibly-`undefined`
value: `undefined` renders as the string `"undefined"`. -/
def jsTemplateStr : Option String → String
  | some s => s
  | none => "undefined"

/-- Construction of one flow node from a graph node and its position
(GraphView.tsx lines 96–131). -/
def mkFlowNode (node : GraphNode) (position : Position) : FlowNode :=
  let colors := getEnhancedColor node.type false false
  { id := node.id
    position := position
    data := ⟨node.label, node.type, colors.text⟩
    style := ⟨colors.bg, colors.text, "3px solid " ++ jsTemplateStr colors.border,
      colors.shadow, 1⟩ }

/-- The node-building effect (GraphView.tsx lines 71–135): each node uses its
saved position when one exists in `nodePositionsRef`, and the computed grid
position otherwise. -/
def buildFlowNodes (graphNodes : List GraphNode)
    (saved : String → Option Position) : List FlowNode :=
  let layout := calculateLayout graphNodes.length
  graphNodes.enum.map fun p =>
    mkFlowNode p.2 ((saved p.2.id).getD (gridPosition p.1 layout.1 layout.2))

/-- The effect's early-exit guard: `if (!graphNodes || graphNodes.length ===
0) return;` leaves the current flow nodes untouched. -/
def nodesEffect (graphNodes : List GraphNode) (saved : String → Option Position)
    (current : List FlowNode) : List FlowNode :=
  if graphNodes.isEmpty then current else buildFlowNodes graphNodes saved

/-- JavaScript truthiness of `selectedNodeId : string | null`. -/
def jsTruthyStr : Option String → Bool
  | none => false
  | some s => !s.isEmpty

/-- The connected-id set computed by the selection effect (GraphView.tsx
lines 139–147), as the list of ids added while walking the edges. -/
def connectedNodeIds (selected : Option String) (graphEdges : List GraphEdge) :
    List String :=
  match selected with
  | none => []
  | some sid =>
    graphEdges.foldl (fun acc e =>
      let acc1 := if e.source == sid then acc ++ [e.target] else acc
      if e.target == sid then acc1 ++ [e.source] else acc1) []

/-- The per-node update of the selection effect (GraphView.tsx lines
150–186): looks the flow node's graph node up, rewrites `data` and `style`,
and spreads the rest of the node (in particular `position`) unchanged. -/
def updateNodeForSelection (selected : Option String) (connectedIds : List String)
    (graphNodes : List GraphNode) (node : FlowNode) : FlowNode :=
  match graphNodes.find? fun gn => gn.id == node.id with
  | none => node
  | some gn =>
    let isHighlighted := selected == some node.id
    let isConnected := connectedIds.contains node.id
    let colors := getEnhancedColor gn.type isHighlighted isConnected
    { node with
      data := ⟨gn.label, gn.type, colors.text⟩
      style := { node.style with
        background := colors.bg
        textColor := colors.text
        border := "3px solid " ++ jsTemplateStr colors.border
        boxShadow := colors.shadow
        opacity :=
          if jsTruthyStr selected && !isHighlighted && !isConnected
          then (3 : Rat) / 10 else 1 } }

/-- The selection effect over the whole current node list. -/
def updateNodesForSelection (selected : Option String) (graphNodes : List GraphNode)
    (graphEdges : List GraphEdge) (current : List FlowNode) : List FlowNode :=
  current.map (updateNodeForSelection selected (connectedNodeIds selected graphEdges) graphNodes)

/-- One entry of the change list ReactFlow hands to `onNodesChange`. -/
structure NodeChange where
  changeType : String
  position : Option Position
  dragging : Option Bool
  id : String
deriving DecidableEq, Repr

/-- The position-saving part of `handleNodesChange` (GraphView.tsx lines
227–239): a change is recorded into `nodePositionsRef` exactly when it is a
position change carrying a position and `dragging === false` (the drag has
completed). -/
def savePositions (saved : String → Option Position) (changes : List NodeChange) :
    String → Option Position :=
  changes.foldl (fun m ch =>
    if ch.changeType == "position" && ch.position.isSome && ch.dragging == some false then
      fun k => if k = ch.id then ch.position else m k
    else m) saved

/-- Marker of a rendered edge (`markerEnd`). -/
structure FlowMarker where
  markerType : String
  color : String
deriving DecidableEq, Repr

/-- A rendered flow edge (the fields of the object built in GraphView.tsx
lines 189–221 that carry graph content). -/
structure FlowEdge where
  id : String
  source : String
  target : String
  label : String
  edgeType : String
  animated : Bool
  markerEnd : FlowMarker
deriving DecidableEq, Repr

/-- `selectedNodeId && (edge.source === selectedNodeId || edge.target ===
selectedNodeId)` as a boolean. -/
def edgeHighlighted (selected : Option String) (e : GraphEdge) : Bool :=
  match selected with
  | none => false
  | some sid => !sid.isEmpty && (e.source == sid || e.target == sid)

/-- The edge construction of the selection effect (GraphView.tsx lines
189–221): each graph edge at `index` becomes one flow edge with id
`edge-${index}`, the same `source`/`target`/`label`, a `smoothstep` line and
a closed-arrow marker at the target end. -/
def mkFlowEdges (selected : Option String) (graphEdges : List GraphEdge) :
    List FlowEdge :=
  graphEdges.enum.map fun p =>
    let isH := edgeHighlighted selected p.2
    { id := "edge-" ++ Nat.repr p.1
      source := p.2.source
      target := p.2.target
      label := p.2.label
      edgeType := "smoothstep"
      animated := isH
      markerEnd :=
        ⟨"arrowclosed",
         if isH then "hsl(var(--foreground))" else "hsl(var(--muted-foreground))"⟩ }

/-! ## C8: relationship direction is preserved end to end -/

/-- **C8.** For any two edges of the fetched graph that are each other's swap
(same label, exchanged source and target) at distinct positions, the graph
view renders two distinct directed edges: the rendered list keeps one entry
per graph edge (lengths agree — opposite-direction edges are never merged),
each rendered edge keeps its own `source`/`target`/`label`, the two ids
`edge-${i}`/`edge-${j}` are distinct, and both carry a closed-arrow marker at
the target end. -/
theorem C8_direction_preserved
    (selected : Option String) (edges : List GraphEdge) (i j : Nat)
    (ei ej : GraphEdge)
    (hi : edges[i]? = some ei) (hj : edges[j]? = some ej) (hij : i ≠ j)
    (hswapSrc : ej.source = ei.target) (hswapTgt : ej.target = ei.source)
    (hlabel : ej.label = ei.label) :
    (mkFlowEdges selected edges).length = edges.length ∧
    ∃ fi fj,
      (mkFlowEdges selected edges)[i]? = some fi ∧
      (mkFlowEdges selected edges)[j]? = some fj ∧
      fi.source = ei.source ∧ fi.target = ei.target ∧ fi.label = ei.label ∧
      fj.source = ej.source ∧ fj.target = ej.target ∧ fj.label = ej.label ∧
      fi.id ≠ fj.id ∧
      fi.markerEnd.markerType = "arrowclosed" ∧
      fj.markerEnd.markerType = "arrowclosed" := by
  refine ⟨by simp [mkFlowEdges], ?_⟩
  have hfi : (mkFlowEdges selected edges)[i]?
      = some ⟨"edge-" ++ Nat.repr i, ei.source, ei.target, ei.label, "smoothstep",
          edgeHighlighted selected ei,
          ⟨"arrowclosed",
           if edgeHighlighted selected ei then "hsl(var(--foreground))"
           else "hsl(var(--muted-foreground))"⟩⟩ := by
    simp [mkFlowEdges, List.getElem?_enum, hi]
  have hfj : (mkFlowEdges selected edges)[j]?
      = some ⟨"edge-" ++ Nat.repr j, ej.source, ej.target, ej.label, "smoothstep",
          edgeHighlighted selected ej,
          ⟨"arrowclosed",
           if edgeHighlighted selected ej then "hsl(var(--foreground))"
           else "hsl(var(--muted-foreground))"⟩⟩ := by
    simp [mkFlowEdges, List.getElem?_enum, hj]
  refine ⟨_, _, hfi, hfj, rfl, rfl, rfl, rfl, rfl, rfl, ?_, rfl, rfl⟩
  intro hids
  exact hij (edgeId_inj hids)

/-- Witness for `C8_direction_preserved` on a concrete two-edge graph with a
swapped pair. -/
theorem C8_direction_preserved_witness :
    (mkFlowEdges none [⟨"a", "b", "met"⟩, ⟨"b", "a", "met"⟩]).length
      = ([⟨"a", "b", "met"⟩, ⟨"b", "a", "met"⟩] : List GraphEdge).length ∧
    ∃ fi fj,
      (mkFlowEdges none [⟨"a", "b", "met"⟩, ⟨"b", "a", "met"⟩])[0]? = some fi ∧
      (mkFlowEdges none [⟨"a", "b", "met"⟩, ⟨"b", "a", "met"⟩])[1]? = some fj ∧
      fi.source = (⟨"a", "b", "met"⟩ : GraphEdge).source ∧
      fi.target = (⟨"a", "b", "met"⟩ : GraphEdge).target ∧
      fi.label = (⟨"a", "b", "met"⟩ : GraphEdge).label ∧
      fj.source = (⟨"b", "a", "met"⟩ : GraphEdge).source ∧
      fj.target = (⟨"b", "a", "met"⟩ : GraphEdge).target ∧
      fj.label = (⟨"b", "a", "met"⟩ : GraphEdge).label ∧
      fi.id ≠ fj.id ∧
      fi.markerEnd.markerType = "arrowclosed" ∧
      fj.markerEnd.markerType = "arrowclosed" :=
  C8_direction_preserved none [⟨"a", "b", "met"⟩, ⟨"b", "a", "met"⟩] 0 1
    ⟨"a", "b", "met"⟩ ⟨"b", "a", "met"⟩ rfl rfl (by decide) rfl rfl rfl

/-! ## C9: user-arranged node positions survive re-renders -/

/-- The selection effect only rewrites `data` and `style`: the id and the
position of every flow node are untouched. -/
theorem updateNodeForSelection_id_position
    (selected : Option String) (connectedIds : List String)
    (graphNodes : List GraphNode) (node : FlowNode) :
    (updateNodeForSelection selected connectedIds graphNodes node).id = node.id ∧
    (updateNodeForSelection selected connectedIds graphNodes node).position
      = node.position := by
  unfold updateNodeForSelection
  cases graphNodes.find? fun gn => gn.id == node.id <;> simp

/-- **C9.** Saved drag positions are authoritative across re-renders:
a completed drag (`type === 'position'`, position present, `dragging ===
false`) records its position; every rebuild of the node list reuses the saved
position of a node that has one and computes the grid position only for nodes
with none; and the selection-change effect rewrites only styles and labels,
never the `position` (or `id`) field. -/
theorem C9_positions_preserved
    (saved : String → Option Position) (changes : List NodeChange)
    (gid : String) (p : Position)
    (graphNodes : List GraphNode) (i : Nat) (node : GraphNode)
    (hnode : graphNodes[i]? = some node)
    (selected : Option String) (graphEdges : List GraphEdge)
    (current : List FlowNode) :
    savePositions saved (changes ++ [⟨"position", some p, some false, gid⟩]) gid
        = some p ∧
    (∀ q, saved node.id = some q →
      (buildFlowNodes graphNodes saved)[i]? = some (mkFlowNode node q)) ∧
    (saved node.id = none →
      (buildFlowNodes graphNodes saved)[i]?
        = some (mkFlowNode node
            (gridPosition i (calculateLayout graphNodes.length).1
              (calculateLayout graphNodes.length).2))) ∧
    ((updateNodesForSelection selected graphNodes graphEdges current).map
        fun n => (n.id, n.position))
      = (current.map fun n => (n.id, n.position)) := by
  refine ⟨?_, ?_, ?_, ?_⟩
  · rw [savePositions, List.foldl_append]
    simp
  · intro q hq
    simp [buildFlowNodes, List.getElem?_enum, hnode, hq]
  · intro hq
    simp [buildFlowNodes, List.getElem?_enum, hnode, hq]
  · unfold updateNodesForSelection
    rw [List.map_map]
    apply List.map_congr_left
    intro n _
    have h := updateNodeForSelection_id_position selected
      (connectedNodeIds selected graphEdges) graphNodes n
    simp [Function.comp, h.1, h.2]

/-- Witness for `C9_positions_preserved` on a concrete node and drag. -/
theorem C9_positions_preserved_witness :
    savePositions (fun _ => none)
        ([] ++ [⟨"position", some ⟨1, 2⟩, some false, "n1"⟩]) "n1"
      = some ⟨1, 2⟩ ∧
    (∀ q, (fun _ => none : String → Option Position) "n1" = some q →
      (buildFlowNodes [⟨"n1", "A", "Person", "#EF4444"⟩] fun _ => none)[0]?
        = some (mkFlowNode ⟨"n1", "A", "Person", "#EF4444"⟩ q)) ∧
    ((fun _ => none : String → Option Position) "n1" = none →
      (buildFlowNodes [⟨"n1", "A", "Person", "#EF4444"⟩] fun _ => none)[0]?
        = some (mkFlowNode ⟨"n1", "A", "Person", "#EF4444"⟩
            (gridPosition 0
              (calculateLayout [(⟨"n1", "A", "Person", "#EF4444"⟩ : GraphNode)].length).1
              (calculateLayout [(⟨"n1", "A", "Person", "#EF4444"⟩ : GraphNode)].length).2))) ∧
    ((updateNodesForSelection none [⟨"n1", "A", "Person", "#EF4444"⟩] [] []).map
        fun n => (n.id, n.position))
      = (([] : List FlowNode).map fun n => (n.id, n.position)) :=
  C9_positions_preserved (fun _ => none) [] "n1" ⟨1, 2⟩
    [⟨"n1", "A", "Person", "#EF4444"⟩] 0 ⟨"n1", "A", "Person", "#EF4444"⟩ rfl
    none [] []

/-! ## The backend graph engine, modelled from the specification

The repository's architecture places the knowledge-graph logic in
`backend/modules/graph_manager.py`, which is not among the shipped sources;
the definitions below are therefore modelled from the specification's data
model (§3), Entity Resolver (§4.2), Graph Merge Engine (§4.3) and Case Graph
Store (§4.1). -/

/-- Modelled from the spec: the closed entity-type variant
{Person, Location, Object, Event, Organization, Unknown}. -/
inductive EType where
  | Person
  | Location
  | Object
  | Event
  | Organization
  | Unknown
deriving DecidableEq, Repr

/-- Modelled from the spec: an entity of the case graph — stable id, mutable
label, type, alias set, first/last-seen turn counters. -/
structure Entity where
  id : Nat
  label : String
  etype : EType
  aliases : List String
  firstSeen : Nat
  lastSeen : Nat
deriving DecidableEq, Repr

/-- Modelled from the spec: a relationship — source/target entity ids, label,
occurrence count, first/last-seen turns. -/
structure Relationship where
  sourceId : Nat
  targetId : Nat
  rlabel : String
  occurrences : Nat
  firstSeen : Nat
  lastSeen : Nat
deriving DecidableEq, Repr

/-- Modelled from the spec: the per-case graph owned by the Case Graph Store,
with the turn counter and the next fresh entity id. -/
structure CaseGraph where
  entities : List Entity
  rels : List Relationship
  turn : Nat
  nextId : Nat
deriving DecidableEq, Repr

/-- A case graph is created empty. -/
def emptyCaseGraph : CaseGraph := ⟨[], [], 0, 0⟩

/-- Modelled from the spec: a candidate entity mention from the extraction
collaborator — `(surface_text, proposed_type)`. -/
structure Candidate where
  surface : String
  ctype : EType
deriving DecidableEq, Repr

/-- Modelled from the spec: a candidate relationship —
`(source_surface, target_surface, label)`. -/
structure CandRel where
  sourceSurface : String
  targetSurface : String
  rlabel : String
deriving DecidableEq, Repr

/-- Modelled from the spec: the extraction collaborator's output for one
turn. -/
structure Extraction where
  entities : List Candidate
  relationships : List CandRel
deriving DecidableEq, Repr

/-- Modelled from the spec: case-insensitive whitespace normalization of a
surface string. -/
def normalizeSurface (s : String) : String :=
  String.intercalate " " ((s.toLower.split Char.isWhitespace).filter fun t => !t.isEmpty)

/-- Modelled from the spec (§4.2 step 1): the proposed type is compatible
with an entity's type when it equals it or is `Unknown`. -/
def compatibleType (proposed existing : EType) : Bool :=
  proposed == existing || proposed == .Unknown

/-- Modelled from the spec (§4.2 step 2): fuzzy matching applies to
Person/Organization/Location mentions only. -/
def fuzzyEligible : EType → Bool
  | .Person => true
  | .Organization => true
  | .Location => true
  | _ => false

/-- `small` occurs as a contiguous sublist of `big`. -/
def charsInfix (small big : List Char) : Bool :=
  (List.range (big.length + 1)).any fun i => (big.drop i).take small.length == small

/-- Modelled from the spec: strict substring-or-superstring containment of
normalized surface strings. -/
def strictSubOrSup (a b : String) : Bool :=
  a != b && (charsInfix a.data b.data || charsInfix b.data a.data)

/-- The surface strings attached to an entity: its label and its aliases. -/
def entityStrings (e : Entity) : List String :=
  e.label :: e.aliases

/-- Modelled from the spec (§4.2): the Entity Resolver's verdict. -/
inductive Resolution where
  | matched (id : Nat)
  | new
deriving DecidableEq, Repr

/-- Modelled from the spec (§4.2 step 1, exact alias match): first entity of
a compatible type one of whose surface strings equals the mention
(case-insensitively, whitespace-normalized). -/
def exactMatch (g : CaseGraph) (c : Candidate) : Option Nat :=
  (g.entities.find? fun e =>
      compatibleType c.ctype e.etype &&
      (entityStrings e).any fun a => normalizeSurface a == normalizeSurface c.surface).map (·.id)

/-- Modelled from the spec (§4.2 step 2): same-type entities one of whose
surface strings strictly contains, or is strictly contained in, the
normalized mention. -/
def fuzzyCandidates (g : CaseGraph) (c : Candidate) : List Entity :=
  g.entities.filter fun e =>
    e.etype == c.ctype &&
    (entityStrings e).any fun a => strictSubOrSup (normalizeSurface c.surface) (normalizeSurface a)

/-- The candidate with the greatest `lastSeen` turn (recency tie-break). -/
def mostRecent : List Entity → Option Entity
  | [] => none
  | e :: es => some (es.foldl (fun best x => if best.lastSeen < x.lastSeen then x else best) e)

/-- Modelled from the spec (§4.2): the Entity Resolver — exact alias match
first (authoritative), then the type-gated recency-tie-broken fuzzy match for
eligible types, otherwise `new`.  Pure query against the snapshot. -/
def resolve (g : CaseGraph) (c : Candidate) : Resolution :=
  match exactMatch g c with
  | some i => .matched i
  | none =>
    if fuzzyEligible c.ctype then
      match mostRecent (fuzzyCandidates g c) with
      | some e => .matched e.id
      | none => .new
    else .new

/-- Modelled from the spec: recording a mention against a matched entity adds
the surface as an alias (if genuinely new) and bumps `lastSeen`; the id is
never changed. -/
def addAlias (e : Entity) (a : String) (turn : Nat) : Entity :=
  { e with
    aliases :=
      if (entityStrings e).any (fun x => normalizeSurface x == normalizeSurface a) then e.aliases
      else e.aliases ++ [a]
    lastSeen := turn }

/-- Modelled from the spec (§4.3, entity phase): resolve every mention
against the pre-turn snapshot `g0`, assigning fresh ids to `new` results
before any relationship is processed; returns the updated graph and the
surface-to-id resolution map of the turn. -/
def entStep (g0 : CaseGraph) (turn : Nat) (acc : CaseGraph × List (String × Nat))
    (c : Candidate) : CaseGraph × List (String × Nat) :=
  match acc.2.lookup (normalizeSurface c.surface) with
  | some _ => acc
  | none =>
    match resolve g0 c with
    | .matched i =>
      ({ acc.1 with
          entities := acc.1.entities.map fun e =>
            if e.id == i then addAlias e c.surface turn else e },
       acc.2 ++ [(normalizeSurface c.surface, i)])
    | .new =>
      ({ acc.1 with
          entities := acc.1.entities ++
            [⟨acc.1.nextId, c.surface, c.ctype, [c.surface], turn, turn⟩]
          nextId := acc.1.nextId + 1 },
       acc.2 ++ [(normalizeSurface c.surface, acc.1.nextId)])

/-- Modelled from the spec (§4.3, entity phase, whole turn): fold the
turn's mentions through `entStep`, starting from the pre-turn snapshot and an
empty resolution map. -/
def resolveEntities (g0 : CaseGraph) (turn : Nat) (cs : List Candidate) :
    CaseGraph × List (String × Nat) :=
  cs.foldl (entStep g0 turn) (g0, [])

/-- Modelled from the spec (§4.3, relationship phase, one candidate whose two
endpoints resolved): a relationship matching an existing
`(source, target, label)` triple is strengthened (occurrence count and
`lastSeen`), otherwise inserted as new with count 1. -/
def applyRel (g : CaseGraph) (turn s t : Nat) (lbl : String) : CaseGraph :=
  if g.rels.any fun r => r.sourceId == s && r.targetId == t && r.rlabel == lbl then
    { g with
      rels := g.rels.map fun r =>
        if r.sourceId == s && r.targetId == t && r.rlabel == lbl then
          { r with occurrences := r.occurrences + 1, lastSeen := turn }
        else r }
  else
    { g with rels := g.rels ++ [⟨s, t, lbl, 1, turn, turn⟩] }

/-- Modelled from the spec (§4.3): every candidate relationship requires both
endpoints to have resolved to concrete entity ids of this turn's map; a
candidate with an unresolved endpoint is dropped, never added with a
placeholder. -/
def relStep (turn : Nat) (m : List (String × Nat)) (g : CaseGraph)
    (r : CandRel) : CaseGraph :=
  match m.lookup (normalizeSurface r.sourceSurface),
        m.lookup (normalizeSurface r.targetSurface) with
  | some s, some t => applyRel g turn s t (normalizeSurface r.rlabel)
  | _, _ => g

/-- Modelled from the spec (§4.3, relationship phase, whole turn). -/
def applyRels (g : CaseGraph) (turn : Nat) (m : List (String × Nat))
    (rs : List CandRel) : CaseGraph :=
  rs.foldl (relStep turn m) g

/-- Modelled from the spec (§4.3/§4.4): one ingest turn — bump the turn
counter, run the entity phase against the pre-turn snapshot, then the
relationship phase over the turn's resolution map. -/
def ingest (g : CaseGraph) (ext : Extraction) : CaseGraph :=
  applyRels (resolveEntities { g with turn := g.turn + 1 } (g.turn + 1) ext.entities).1
    (g.turn + 1)
    (resolveEntities { g with turn := g.turn + 1 } (g.turn + 1) ext.entities).2
    ext.relationships

/-- Modelled from the spec (§4.1/§6): `clear_graph` — the destructive reset;
discards the whole graph, resets the turn counter, always reports
`success: true` (clearing an empty graph included). -/
def clearCase (_g : CaseGraph) : CaseGraph × Bool :=
  (emptyCaseGraph, true)

/-- Modelled from the spec (§6): the `get_graph` read surface — nodes
`{id, label, type}` and edges `{source, target, label}` rendered from the
case graph (ids as strings; the client's `color` field is not part of the
spec's node shape and is supplied as the empty string). -/
def etypeString : EType → String
  | .Person => "Person"
  | .Location => "Location"
  | .Object => "Object"
  | .Event => "Event"
  | .Organization => "Organization"
  | .Unknown => "Unknown"

/-- Modelled from the spec (§6): the snapshot `get_graph` returns. -/
def caseSnapshot (g : CaseGraph) : GraphData :=
  ⟨g.entities.map fun e => ⟨Nat.repr e.id, e.label, etypeString e.etype, ""⟩,
   g.rels.map fun r => ⟨Nat.repr r.sourceId, Nat.repr r.targetId, r.rlabel⟩⟩

/-! ## C3: referential integrity of every graph the engine produces -/

/-- The ids of the entities present in a case graph. -/
def entityIds (g : CaseGraph) : List Nat := g.entities.map (·.id)

/-- Referential integrity: every relationship's endpoints are ids of entities
present in the same graph. -/
def refIntegrity (g : CaseGraph) : Prop :=
  ∀ r ∈ g.rels, r.sourceId ∈ entityIds g ∧ r.targetId ∈ entityIds g

theorem addAlias_id (e : Entity) (a : String) (turn : Nat) :
    (addAlias e a turn).id = e.id := rfl

theorem mostRecent_mem (l : List Entity) (e : Entity)
    (h : mostRecent l = some e) : e ∈ l := by
  have aux : ∀ (xs : List Entity) (acc : Entity),
      xs.foldl (fun best x => if best.lastSeen < x.lastSeen then x else best) acc = acc ∨
      xs.foldl (fun best x => if best.lastSeen < x.lastSeen then x else best) acc ∈ xs := by
    intro xs
    induction xs with
    | nil => intro acc; exact Or.inl rfl
    | cons x xs ih =>
      intro acc
      simp only [List.foldl_cons]
      rcases ih (if acc.lastSeen < x.lastSeen then x else acc) with hh | hh
      · rw [hh]
        by_cases hc : acc.lastSeen < x.lastSeen
        · simp [hc]
        · simp [hc]
      · exact Or.inr (List.mem_cons_of_mem x hh)
  cases l with
  | nil => simp [mostRecent] at h
  | cons x xs =>
    simp only [mostRecent, Option.some.injEq] at h
    rcases aux xs x with hh | hh
    · rw [← h, hh]; exact List.mem_cons_self x xs
    · rw [← h]; exact List.mem_cons_of_mem x hh

theorem resolve_matched_mem (g : CaseGraph) (c : Candidate) (i : Nat)
    (h : resolve g c = .matched i) : i ∈ entityIds g := by
  unfold resolve at h
  cases hex : exactMatch g c with
  | some k =>
    rw [hex] at h
    cases h
    unfold exactMatch at hex
    obtain ⟨e, hfind, hid⟩ := Option.map_eq_some'.mp hex
    have hmem := List.mem_of_find?_eq_some hfind
    rw [← hid]
    exact List.mem_map_of_mem (·.id) hmem
  | none =>
    rw [hex] at h
    by_cases hf : fuzzyEligible c.ctype
    · rw [if_pos hf] at h
      cases hmr : mostRecent (fuzzyCandidates g c) with
      | some e =>
        rw [hmr] at h
        cases h
        have hmem := mostRecent_mem _ _ hmr
        have : e ∈ g.entities := List.mem_of_mem_filter hmem
        exact List.mem_map_of_mem (·.id) this
      | none => rw [hmr] at h; cases h
    · rw [if_neg hf] at h; cases h

theorem entStep_inv (g0 : CaseGraph) (turn : Nat) (c : Candidate)
    (acc : CaseGraph × List (String × Nat))
    (h1 : entityIds g0 ⊆ entityIds acc.1)
    (h2 : acc.1.rels = g0.rels)
    (h3 : ∀ p ∈ acc.2, p.2 ∈ entityIds acc.1) :
    entityIds g0 ⊆ entityIds (entStep g0 turn acc c).1 ∧
    (entStep g0 turn acc c).1.rels = g0.rels ∧
    ∀ p ∈ (entStep g0 turn acc c).2, p.2 ∈ entityIds (entStep g0 turn acc c).1 := by
  unfold entStep
  split
  · exact ⟨h1, h2, h3⟩
  · split
    · next i heq =>
      have hids : entityIds ({ acc.1 with
          entities := acc.1.entities.map fun e =>
            if e.id == i then addAlias e c.surface turn else e } : CaseGraph)
          = entityIds acc.1 := by
        simp only [entityIds, List.map_map]
        apply List.map_congr_left
        intro e _
        by_cases he : (e.id == i) = true
        · simp [Function.comp, he, addAlias]
        · simp [Function.comp, he]
      refine ⟨?_, h2, ?_⟩
      · intro x hx
        rw [hids]
        exact h1 hx
      · intro p hp
        rw [hids]
        rcases List.mem_append.mp hp with hp | hp
        · exact h3 p hp
        · have : p = (normalizeSurface c.surface, i) := by simpa using hp
          rw [this]
          exact h1 (resolve_matched_mem g0 c i heq)
    · next heq =>
      have hids : entityIds ({ acc.1 with
          entities := acc.1.entities ++
            [⟨acc.1.nextId, c.surface, c.ctype, [c.surface], turn, turn⟩]
          nextId := acc.1.nextId + 1 } : CaseGraph)
          = entityIds acc.1 ++ [acc.1.nextId] := by
        simp [entityIds]
      refine ⟨?_, h2, ?_⟩
      · intro x hx
        rw [hids]
        exact List.mem_append_left _ (h1 hx)
      · intro p hp
        rw [hids]
        rcases List.mem_append.mp hp with hp | hp
        · exact List.mem_append_left _ (h3 p hp)
        · have : p = (normalizeSurface c.surface, acc.1.nextId) := by simpa using hp
          rw [this]
          exact List.mem_append_right _ (by simp)

theorem entPhase_foldl (g0 : CaseGraph) (turn : Nat) :
    ∀ (cs : List Candidate) (acc : CaseGraph × List (String × Nat)),
      entityIds g0 ⊆ entityIds acc.1 →
      acc.1.rels = g0.rels →
      (∀ p ∈ acc.2, p.2 ∈ entityIds acc.1) →
      entityIds g0 ⊆ entityIds (cs.foldl (entStep g0 turn) acc).1 ∧
      (cs.foldl (entStep g0 turn) acc).1.rels = g0.rels ∧
      ∀ p ∈ (cs.foldl (entStep g0 turn) acc).2,
        p.2 ∈ entityIds (cs.foldl (entStep g0 turn) acc).1 := by
  intro cs
  induction cs with
  | nil => intro acc h1 h2 h3; exact ⟨h1, h2, h3⟩
  | cons c cs ih =>
    intro acc h1 h2 h3
    obtain ⟨h1', h2', h3'⟩ := entStep_inv g0 turn c acc h1 h2 h3
    simpa using ih (entStep g0 turn acc c) h1' h2' h3'

theorem resolveEntities_spec (g0 : CaseGraph) (turn : Nat) (cs : List Candidate) :
    entityIds g0 ⊆ entityIds (resolveEntities g0 turn cs).1 ∧
    (resolveEntities g0 turn cs).1.rels = g0.rels ∧
    ∀ p ∈ (resolveEntities g0 turn cs).2,
      p.2 ∈ entityIds (resolveEntities g0 turn cs).1 :=
  entPhase_foldl g0 turn cs (g0, []) (fun _ hx => hx) rfl (by intro p hp; simp at hp)

theorem lookup_val_mem {α β : Type} [BEq α] :
    ∀ (l : List (α × β)) (k : α) (v : β), l.lookup k = some v → v ∈ l.map Prod.snd := by
  intro l
  induction l with
  | nil => intro k v h; simp [List.lookup] at h
  | cons p l ih =>
    intro k v h
    cases p with
    | mk a b =>
      simp only [List.lookup] at h
      by_cases hk : (k == a) = true
      · rw [hk] at h
        simp only at h
        cases h
        simp
      · rw [Bool.not_eq_true] at hk
        rw [hk] at h
        simp only at h
        simpa using Or.inr (ih k v h)

theorem lookup_mem_ids (m : List (String × Nat)) (g1 : CaseGraph)
    (hm : ∀ p ∈ m, p.2 ∈ entityIds g1) (k : String) (v : Nat)
    (h : m.lookup k = some v) : v ∈ entityIds g1 := by
  obtain ⟨p, hp, hpv⟩ := List.mem_map.mp (lookup_val_mem m k v h)
  rw [← hpv]
  exact hm p hp

theorem applyRel_entities (g : CaseGraph) (turn s t : Nat) (lbl : String) :
    (applyRel g turn s t lbl).entities = g.entities := by
  unfold applyRel
  split <;> rfl

theorem applyRel_integrity (g : CaseGraph) (turn s t : Nat) (lbl : String)
    (hg : refIntegrity g) (hs : s ∈ entityIds g) (ht : t ∈ entityIds g) :
    refIntegrity (applyRel g turn s t lbl) := by
  intro r hr
  have hids : entityIds (applyRel g turn s t lbl) = entityIds g := by
    unfold entityIds
    rw [applyRel_entities]
  rw [hids]
  unfold applyRel at hr
  split at hr
  · obtain ⟨r0, hr0, hfr⟩ := List.mem_map.mp hr
    have hend : r.sourceId = r0.sourceId ∧ r.targetId = r0.targetId := by
      by_cases hc : (r0.sourceId == s && r0.targetId == t && r0.rlabel == lbl) = true
      · rw [← hfr]; simp [hc]
      · rw [← hfr]; simp [hc]
    rw [hend.1, hend.2]
    exact hg r0 hr0
  · rcases List.mem_append.mp hr with hr | hr
    · exact hg r hr
    · have : r = ⟨s, t, lbl, 1, turn, turn⟩ := by simpa using hr
      rw [this]
      exact ⟨hs, ht⟩

theorem relStep_inv (turn : Nat) (m : List (String × Nat)) (g1 : CaseGraph)
    (hm : ∀ p ∈ m, p.2 ∈ entityIds g1) (r : CandRel) (g : CaseGraph)
    (hg : refIntegrity g) (hent : g.entities = g1.entities) :
    refIntegrity (relStep turn m g r) ∧ (relStep turn m g r).entities = g1.entities := by
  have hidsg : entityIds g = entityIds g1 := by
    unfold entityIds
    rw [hent]
  unfold relStep
  split
  · next s t hsl htl =>
    have hs : s ∈ entityIds g := by rw [hidsg]; exact lookup_mem_ids m g1 hm _ s hsl
    have ht : t ∈ entityIds g := by rw [hidsg]; exact lookup_mem_ids m g1 hm _ t htl
    refine ⟨applyRel_integrity g turn s t _ hg hs ht, ?_⟩
    rw [applyRel_entities]
    exact hent
  · exact ⟨hg, hent⟩

theorem applyRels_inv (turn : Nat) (m : List (String × Nat)) (g1 : CaseGraph)
    (hm : ∀ p ∈ m, p.2 ∈ entityIds g1) :
    ∀ (rs : List CandRel) (g : CaseGraph), refIntegrity g → g.entities = g1.entities →
      refIntegrity (rs.foldl (relStep turn m) g) ∧
      (rs.foldl (relStep turn m) g).entities = g1.entities := by
  intro rs
  induction rs with
  | nil => intro g hg hent; exact ⟨hg, hent⟩
  | cons r rs ih =>
    intro g hg hent
    obtain ⟨h1, h2⟩ := relStep_inv turn m g1 hm r g hg hent
    simpa using ih (relStep turn m g r) h1 h2

theorem ingest_integrity (g : CaseGraph) (ext : Extraction)
    (hg : refIntegrity g) : refIntegrity (ingest g ext) := by
  obtain ⟨hsub, hrels, hmap⟩ :=
    resolveEntities_spec { g with turn := g.turn + 1 } (g.turn + 1) ext.entities
  have hstep1 :
      refIntegrity (resolveEntities { g with turn := g.turn + 1 } (g.turn + 1)
        ext.entities).1 := by
    intro r hr
    rw [hrels] at hr
    have hend := hg r hr
    exact ⟨hsub hend.1, hsub hend.2⟩
  exact (applyRels_inv (g.turn + 1) _ _ hmap ext.relationships _ hstep1 rfl).1

/-- **C3.** For every graph produced by any sequence of ingests starting from
the empty case graph, every relationship's endpoints are ids of entities
present in the same graph, and in the `get_graph` snapshot every edge's
`source` and `target` occur among the node ids (no dangling endpoints); since
this holds after every prefix of the sequence, a relationship is never present
before both its endpoints exist. -/
theorem C3_referential_integrity (turns : List Extraction) :
    refIntegrity (turns.foldl ingest emptyCaseGraph) ∧
    ∀ e ∈ (caseSnapshot (turns.foldl ingest emptyCaseGraph)).edges,
      e.source ∈ (caseSnapshot (turns.foldl ingest emptyCaseGraph)).nodes.map GraphNode.id ∧
      e.target ∈ (caseSnapshot (turns.foldl ingest emptyCaseGraph)).nodes.map GraphNode.id := by
  have hint : refIntegrity (turns.foldl ingest emptyCaseGraph) := by
    have hrun : ∀ (ts : List Extraction) (g : CaseGraph), refIntegrity g →
        refIntegrity (ts.foldl ingest g) := by
      intro ts
      induction ts with
      | nil => intro g hg; exact hg
      | cons t ts ih =>
        intro g hg
        simpa using ih (ingest g t) (ingest_integrity g t hg)
    exact hrun turns emptyCaseGraph (by intro r hr; simp [emptyCaseGraph] at hr)
  refine ⟨hint, ?_⟩
  intro e he
  simp only [caseSnapshot, List.mem_map] at he
  obtain ⟨r, hr, hre⟩ := he
  obtain ⟨hs, ht⟩ := hint r hr
  obtain ⟨ents, hents, hids⟩ := List.mem_map.mp hs
  obtain ⟨entt, hentt, hidt⟩ := List.mem_map.mp ht
  constructor
  · rw [← hre]
    simp only [caseSnapshot, List.map_map, List.mem_map]
    exact ⟨ents, hents, by simp [hids]⟩
  · rw [← hre]
    simp only [caseSnapshot, List.map_map, List.mem_map]
    exact ⟨entt, hentt, by simp [hidt]⟩

/-! ## C4: idempotent clear, across client and server -/

/-- Result of the combined client/server clear interaction. -/
structure SysResult where
  server : CaseGraph
  client : AppState
  calls : List ApiCall
  alerts : List String
deriving Repr

/-- `handleClearMemory` from App.tsx (lines 152–163) run against the
spec-modelled backend: guarded by `if (!selectedCaseId) return;`; on a
successful `api.clearGraph` the server graph is reset, the displayed lists
are emptied, and `loadCaseData` re-fetches the messages (`api.getCase`,
supplied as data) and then the graph (`loadGraph`, reading the now-cleared
server state when the fetch succeeds); a thrown clear is caught and leaves
everything unchanged. -/
def handleClearMemorySys (server : CaseGraph) (st : AppState) (clearOk : Bool)
    (caseFetch : ApiResult (List ChatMessage)) (graphFetchOk : Bool) : SysResult :=
  match st.selectedCaseId with
  | none => ⟨server, st, [], []⟩
  | some c =>
    if c = 0 then ⟨server, st, [], []⟩
    else if clearOk then
      let cleared := clearCase server
      let st1 : AppState := { st with graphNodes := [], graphEdges := [] }
      match caseFetch with
      | .error _ => ⟨cleared.1, st1, [.clearGraph c, .getCase c], []⟩
      | .ok ms =>
        let st2 : AppState := { st1 with messages := ms }
        if graphFetchOk then
          ⟨cleared.1,
           { st2 with
              graphNodes := (caseSnapshot cleared.1).nodes,
              graphEdges := (caseSnapshot cleared.1).edges },
           [.clearGraph c, .getCase c, .getGraph c], []⟩
        else
          ⟨cleared.1, st2, [.clearGraph c, .getCase c, .getGraph c], []⟩
    else ⟨server, st, [.clearGraph c], []⟩

/-- **C4.** `clear_graph` is idempotent: called on any graph it yields the
empty graph with `success: true`, calling it again on the result yields the
same, and clearing an already-empty graph is the same no-op success; on the
client, once the clear call succeeds `handleClearMemory` leaves the displayed
node and edge lists empty (whatever the subsequent re-fetches do) and the
server graph empty. -/
theorem C4_clear_idempotent
    (g server : CaseGraph) (st : AppState) (c : Int)
    (caseFetch : ApiResult (List ChatMessage)) (graphFetchOk : Bool)
    (hsel : st.selectedCaseId = some c) (hc : c ≠ 0) :
    clearCase g = (emptyCaseGraph, true) ∧
    clearCase (clearCase g).1 = (emptyCaseGraph, true) ∧
    clearCase emptyCaseGraph = (emptyCaseGraph, true) ∧
    (handleClearMemorySys server st true caseFetch graphFetchOk).client.graphNodes = [] ∧
    (handleClearMemorySys server st true caseFetch graphFetchOk).client.graphEdges = [] ∧
    (handleClearMemorySys server st true caseFetch graphFetchOk).server
      = emptyCaseGraph := by
  refine ⟨rfl, rfl, rfl, ?_, ?_, ?_⟩ <;>
    cases caseFetch <;> cases graphFetchOk <;>
      simp [handleClearMemorySys, hsel, hc, clearCase, caseSnapshot, emptyCaseGraph]

/-- Witness for `C4_clear_idempotent` at a concrete populated graph and
state. -/
theorem C4_clear_idempotent_witness :
    clearCase ⟨[⟨0, "A", .Person, ["a"], 1, 1⟩], [], 1, 1⟩ = (emptyCaseGraph, true) ∧
    clearCase (clearCase ⟨[⟨0, "A", .Person, ["a"], 1, 1⟩], [], 1, 1⟩).1
      = (emptyCaseGraph, true) ∧
    clearCase emptyCaseGraph = (emptyCaseGraph, true) ∧
    (handleClearMemorySys ⟨[⟨0, "A", .Person, ["a"], 1, 1⟩], [], 1, 1⟩
        ⟨[], [⟨"0", "A", "Person", ""⟩], [], false, some 7⟩ true (.ok []) true).client.graphNodes
      = [] ∧
    (handleClearMemorySys ⟨[⟨0, "A", .Person, ["a"], 1, 1⟩], [], 1, 1⟩
        ⟨[], [⟨"0", "A", "Person", ""⟩], [], false, some 7⟩ true (.ok []) true).client.graphEdges
      = [] ∧
    (handleClearMemorySys ⟨[⟨0, "A", .Person, ["a"], 1, 1⟩], [], 1, 1⟩
        ⟨[], [⟨"0", "A", "Person", ""⟩], [], false, some 7⟩ true (.ok []) true).server
      = emptyCaseGraph :=
  C4_clear_idempotent ⟨[⟨0, "A", .Person, ["a"], 1, 1⟩], [], 1, 1⟩
    ⟨[⟨0, "A", .Person, ["a"], 1, 1⟩], [], 1, 1⟩
    ⟨[], [⟨"0", "A", "Person", ""⟩], [], false, some 7⟩ 7 (.ok []) true rfl (by decide)

/-! ## C10: no-case-selected guards -/

/-- **C10.** When no case is selected (`selectedCaseId` is `null`):
`handleSendMessage` makes no API call, appends no message and changes no
state (it only shows the alert); `handleClearMemory` returns with no API call
and no state change on either side; and the Sidebar's "Clear Case Memory"
button is disabled. -/
theorem C10_no_case_selected_guards
    (st : AppState) (message : String) (fileContent : Option String)
    (sendResult : ApiResult ChatResponse) (fetchResult : ApiResult GraphData)
    (server : CaseGraph) (clearOk : Bool)
    (caseFetch : ApiResult (List ChatMessage)) (graphFetchOk : Bool)
    (hsel : st.selectedCaseId = none) :
    (handleSendMessage st message fileContent sendResult fetchResult).state = st ∧
    (handleSendMessage st message fileContent sendResult fetchResult).calls = [] ∧
    (handleSendMessage st message fileContent sendResult fetchResult).alerts
      = [noCaseAlertText] ∧
    handleClearMemorySys server st clearOk caseFetch graphFetchOk
      = ⟨server, st, [], []⟩ ∧
    clearButtonDisabled st.selectedCaseId = true := by
  refine ⟨?_, ?_, ?_, ?_, ?_⟩ <;>
    simp [handleSendMessage, handleClearMemorySys, clearButtonDisabled, jsFalsy, hsel]

/-- Witness for `C10_no_case_selected_guards` at a concrete state with no
selected case. -/
theorem C10_no_case_selected_guards_witness :
    (handleSendMessage ⟨[], [], [], false, none⟩ "hi" none (.ok ⟨"done", true⟩)
        (.ok ⟨[], []⟩)).state = ⟨[], [], [], false, none⟩ ∧
    (handleSendMessage ⟨[], [], [], false, none⟩ "hi" none (.ok ⟨"done", true⟩)
        (.ok ⟨[], []⟩)).calls = [] ∧
    (handleSendMessage ⟨[], [], [], false, none⟩ "hi" none (.ok ⟨"done", true⟩)
        (.ok ⟨[], []⟩)).alerts = [noCaseAlertText] ∧
    handleClearMemorySys emptyCaseGraph ⟨[], [], [], false, none⟩ true (.ok []) true
      = ⟨emptyCaseGraph, ⟨[], [], [], false, none⟩, [], []⟩ ∧
    clearButtonDisabled (⟨[], [], [], false, none⟩ : AppState).selectedCaseId = true :=
  C10_no_case_selected_guards ⟨[], [], [], false, none⟩ "hi" none (.ok ⟨"done", true⟩)
    (.ok ⟨[], []⟩) emptyCaseGraph true (.ok []) true rfl

/-! ## C7: the shape of the nodes and edges the client consumes -/

/-- **C7 counterexample.** The claim formalizes as: a `GraphNode` is fully
determined by `id`, `label` and `type` (no further field is required by the
consumer).  This is false for the code: the client's `GraphNode` interface
(api.ts) requires a fourth field `color`, so two nodes agreeing on the three
spec fields can differ. -/
theorem C7_node_shape_counterexample :
    ¬ (∀ a b : GraphNode, a.id = b.id → a.label = b.label → a.type = b.type → a = b) := by
  intro h
  have heq := h ⟨"e1", "Alice", "Person", "#EF4444"⟩ ⟨"e1", "Alice", "Person", "#6B7280"⟩
    rfl rfl rfl
  have : "#EF4444" = "#6B7280" := congrArg GraphNode.color heq
  exact absurd this (by decide)

/-- **C7 (amended).** Every edge consumed via `get_graph` has exactly the
fields `source`, `target`, `label` (an edge value is determined by them);
every node has the three spec fields `id`, `label`, `type` plus the
client-required `color` field (a node is determined by these four); and the
graph view consumes only `id`, `label`, `type` of a node — its rendering is
invariant under `color`. -/
theorem C7_amended_shapes :
    (∀ a b : GraphEdge,
      a.source = b.source → a.target = b.target → a.label = b.label → a = b) ∧
    (∀ a b : GraphNode,
      a.id = b.id → a.label = b.label → a.type = b.type → a.color = b.color → a = b) ∧
    (∀ (n : GraphNode) (c c' : String) (p : Position),
      mkFlowNode { n with color := c } p = mkFlowNode { n with color := c' } p) := by
  refine ⟨?_, ?_, ?_⟩
  · intro a b h1 h2 h3
    cases a
    cases b
    simp_all
  · intro a b h1 h2 h3 h4
    cases a
    cases b
    simp_all
  · intro n c c' p
    rfl

/-- Witness for `C7_amended_shapes` at concrete values. -/
theorem C7_amended_shapes_witness :
    (⟨"a", "b", "knows"⟩ : GraphEdge) = ⟨"a", "b", "knows"⟩ ∧
    mkFlowNode { (⟨"n1", "A", "Person", "x"⟩ : GraphNode) with color := "red" } ⟨0, 0⟩
      = mkFlowNode { (⟨"n1", "A", "Person", "x"⟩ : GraphNode) with color := "blue" } ⟨0, 0⟩ :=
  ⟨C7_amended_shapes.1 ⟨"a", "b", "knows"⟩ ⟨"a", "b", "knows"⟩ rfl rfl rfl,
   C7_amended_shapes.2.2 ⟨"n1", "A", "Person", "x"⟩ "red" "blue" ⟨0, 0⟩⟩
